import Mathlib

/-!
# Crop geometry of the daisler front-end

Shallow embedding of the crop-geometry code of `src/app/page.tsx`
(`computeCropPixelsFromSelection`, lines 195-235, and the free-mode mouse
handlers, lines 638-684) together with the duplicated crop mapping of
`src/unnamed/part_001` (`refreshToSendPreview`, lines 146-161).

Modelling conventions:
* JS numbers are rationals (`ℚ`); the geometry at hand stays inside exact
  rational arithmetic as long as no division by zero occurs, which the
  theorems' hypotheses rule out (natural image dimensions are the browser's
  integral `naturalWidth`/`naturalHeight`, modelled as `ℕ`).
* `Math.floor` is `Int.floor`, `Math.min`/`Math.max` are `min`/`max`,
  `Math.abs` is `|·|`.
* The JS expression `Math.min(cw / iw, ch / ih) || 1` replaces a zero (or
  NaN) base scale by `1`; it is modelled by an `if · = 0` test, which agrees
  with JS whenever both natural dimensions are positive, and also at
  `cw = ch = 0` (where JS produces `min 0 0 = 0`, falsy).
* The early `null` returns for absent image / container / natural size are
  UI-state guards outside the geometry; the embedding takes the geometry as
  explicit arguments and keeps the `null`-selection guard (`Option`).
-/

namespace Daisler

/-- A user-drawn selection rectangle in container coordinates
(`{x, y, width, height}` of the source). -/
structure Selection where
  x : ℚ
  y : ℚ
  width : ℚ
  height : ℚ
deriving DecidableEq

/-- The resolved crop rectangle in natural image pixel space (the object
literal returned at the end of `computeCropPixelsFromSelection`). -/
structure CropPixels where
  x : ℤ
  y : ℤ
  width : ℤ
  height : ℤ
deriving DecidableEq

/-- The geometry state read by `computeCropPixelsFromSelection`:
`naturalSize`, the container's `clientWidth`/`clientHeight`, and the zoom
state `zoom`, `originX`, `originY`. -/
structure CropEnv where
  naturalWidth : ℕ
  naturalHeight : ℕ
  containerWidth : ℚ
  containerHeight : ℚ
  zoom : ℚ
  originX : ℚ
  originY : ℚ
deriving DecidableEq

/-- `isValidSelection` of `src/app/page.tsx` (on an actual selection):
`sel.width >= 8 && sel.height >= 8`. -/
def isValidSelection (sel : Selection) : Prop :=
  8 ≤ sel.width ∧ 8 ≤ sel.height

instance (sel : Selection) : Decidable (isValidSelection sel) := by
  unfold isValidSelection; infer_instance

/-- `Math.min(cw / iw, ch / ih)` — the contain base scale before the
`|| 1` fallback. -/
def baseScaleRaw (e : CropEnv) : ℚ :=
  min (e.containerWidth / (e.naturalWidth : ℚ))
    (e.containerHeight / (e.naturalHeight : ℚ))

/-- `const baseScale = Math.min(cw / iw, ch / ih) || 1;` — the `|| 1`
fallback replaces a falsy (zero) scale by 1. -/
def baseScale (e : CropEnv) : ℚ :=
  if baseScaleRaw e = 0 then 1 else baseScaleRaw e

/-- `const bw = iw * baseScale;` (base contained width), with the scale kept
as an explicit parameter so that the `|| 1` fallback branch can be named. -/
def bw (s : ℚ) (e : CropEnv) : ℚ := (e.naturalWidth : ℚ) * s

/-- `const bh = ih * baseScale;` (base contained height). -/
def bh (s : ℚ) (e : CropEnv) : ℚ := (e.naturalHeight : ℚ) * s

/-- `const ex = (cw - bw) / 2;` (base letterbox offset inside container). -/
def ex (s : ℚ) (e : CropEnv) : ℚ := (e.containerWidth - bw s e) / 2

/-- `const ey = (ch - bh) / 2;`. -/
def ey (s : ℚ) (e : CropEnv) : ℚ := (e.containerHeight - bh s e) / 2

/-- `imgLeft = originX * (1 - zoom) + ex * zoom;` — displayed left edge of
the zoomed image. -/
def imgLeft (s : ℚ) (e : CropEnv) : ℚ :=
  e.originX * (1 - e.zoom) + ex s e * e.zoom

/-- `imgTop = originY * (1 - zoom) + ey * zoom;`. -/
def imgTop (s : ℚ) (e : CropEnv) : ℚ :=
  e.originY * (1 - e.zoom) + ey s e * e.zoom

/-- `const dispW = bw * zoom;` — displayed image width. -/
def dispW (s : ℚ) (e : CropEnv) : ℚ := bw s e * e.zoom

/-- `const dispH = bh * zoom;` — displayed image height. -/
def dispH (s : ℚ) (e : CropEnv) : ℚ := bh s e * e.zoom

/-- `const ix = Math.max(0, Math.min(sx, imgLeft + dispW) - imgLeft);` —
left edge of the selection clamped into the displayed image, relative to
the image's left edge. -/
def ix (s : ℚ) (e : CropEnv) (sel : Selection) : ℚ :=
  max 0 (min sel.x (imgLeft s e + dispW s e) - imgLeft s e)

/-- `const iy = Math.max(0, Math.min(sy, imgTop + dispH) - imgTop);`. -/
def iy (s : ℚ) (e : CropEnv) (sel : Selection) : ℚ :=
  max 0 (min sel.y (imgTop s e + dispH s e) - imgTop s e)

/-- `const ix2 = Math.max(0, Math.min(sx + sw, imgLeft + dispW) - imgLeft);`. -/
def ix2 (s : ℚ) (e : CropEnv) (sel : Selection) : ℚ :=
  max 0 (min (sel.x + sel.width) (imgLeft s e + dispW s e) - imgLeft s e)

/-- `const iy2 = Math.max(0, Math.min(sy + sh, imgTop + dispH) - imgTop);`. -/
def iy2 (s : ℚ) (e : CropEnv) (sel : Selection) : ℚ :=
  max 0 (min (sel.y + sel.height) (imgTop s e + dispH s e) - imgTop s e)

/-- `const selWOnImg = Math.max(0, ix2 - ix);` — width of the selection's
intersection with the displayed image, in display pixels. -/
def selWOnImg (s : ℚ) (e : CropEnv) (sel : Selection) : ℚ :=
  max 0 (ix2 s e sel - ix s e sel)

/-- `const selHOnImg = Math.max(0, iy2 - iy);`. -/
def selHOnImg (s : ℚ) (e : CropEnv) (sel : Selection) : ℚ :=
  max 0 (iy2 s e sel - iy s e sel)

/-- The tail of `computeCropPixelsFromSelection` after the validity guard:
the `< 1` display-pixel test and the normalize/floor/clamp steps producing
the pixel rectangle. -/
def resolveWithScale (s : ℚ) (e : CropEnv) (sel : Selection) : Option CropPixels :=
  if selWOnImg s e sel < 1 ∨ selHOnImg s e sel < 1 then none
  else some
    { x := max 0 ⌊ix s e sel / dispW s e * (e.naturalWidth : ℚ)⌋
      y := max 0 ⌊iy s e sel / dispH s e * (e.naturalHeight : ℚ)⌋
      width := max 1 ⌊selWOnImg s e sel / dispW s e * (e.naturalWidth : ℚ)⌋
      height := max 1 ⌊selHOnImg s e sel / dispH s e * (e.naturalHeight : ℚ)⌋ }

/-- `computeCropPixelsFromSelection` with the base scale abstracted: the
`isValidSelection` guard (which also rejects a `null` selection) followed by
the geometric resolution. -/
def computeWithScale (s : ℚ) (e : CropEnv) (sel? : Option Selection) :
    Option CropPixels :=
  match sel? with
  | none => none
  | some sel => if isValidSelection sel then resolveWithScale s e sel else none

/-- `computeCropPixelsFromSelection` of `src/app/page.tsx`, lines 195-235. -/
def computeCropPixelsFromSelection (e : CropEnv) (sel? : Option Selection) :
    Option CropPixels :=
  computeWithScale (baseScale e) e sel?

/-- The crop mapping of `refreshToSendPreview` in `src/unnamed/part_001`
(lines 146-161): `scaleX = naturalW / displayedW`, `scaleY = naturalH /
displayedH` with `displayedW = rect.width`, `displayedH = rect.height` (the
container's bounding box), then `Math.max(0, Math.floor(sel.x * scaleX))`
and friends — no letterbox offset, no zoom-origin transform. -/
def variantCropPixels (naturalW naturalH : ℕ) (displayedW displayedH : ℚ)
    (sel : Selection) : CropPixels :=
  { x := max 0 ⌊sel.x * ((naturalW : ℚ) / displayedW)⌋
    y := max 0 ⌊sel.y * ((naturalH : ℚ) / displayedH)⌋
    width := max 1 ⌊sel.width * ((naturalW : ℚ) / displayedW)⌋
    height := max 1 ⌊sel.height * ((naturalH : ℚ) / displayedH)⌋ }

/-! ## Helper lemmas -/

/-- Destructing a successful run of the resolver: the selection passed the
validity guard, both intersection extents are at least one display pixel,
and the result is the floored/clamped pixel rectangle. -/
theorem computeWithScale_eq_some {s : ℚ} {e : CropEnv} {sel : Selection}
    {c : CropPixels} (h : computeWithScale s e (some sel) = some c) :
    isValidSelection sel ∧ 1 ≤ selWOnImg s e sel ∧ 1 ≤ selHOnImg s e sel ∧
      c = { x := max 0 ⌊ix s e sel / dispW s e * (e.naturalWidth : ℚ)⌋
            y := max 0 ⌊iy s e sel / dispH s e * (e.naturalHeight : ℚ)⌋
            width := max 1 ⌊selWOnImg s e sel / dispW s e * (e.naturalWidth : ℚ)⌋
            height := max 1 ⌊selHOnImg s e sel / dispH s e * (e.naturalHeight : ℚ)⌋ } := by
  have h2 : (if isValidSelection sel then resolveWithScale s e sel else none) = some c := h
  unfold resolveWithScale at h2
  split_ifs at h2 with hv hg
  push_neg at hg
  exact ⟨hv, hg.1, hg.2, (Option.some_injective _ h2).symm⟩

/-- With positive container and natural dimensions the raw contain scale is
positive, so the `|| 1` fallback is not taken. -/
theorem baseScale_pos {e : CropEnv} (hiw : 1 ≤ e.naturalWidth)
    (hih : 1 ≤ e.naturalHeight) (hcw : 0 < e.containerWidth)
    (hch : 0 < e.containerHeight) : 0 < baseScale e := by
  have hiw0 : (0 : ℚ) < (e.naturalWidth : ℚ) := by exact_mod_cast hiw.trans_lt' Nat.zero_lt_one
  have hih0 : (0 : ℚ) < (e.naturalHeight : ℚ) := by exact_mod_cast hih.trans_lt' Nat.zero_lt_one
  have hraw : 0 < baseScaleRaw e := by
    unfold baseScaleRaw
    exact lt_min (div_pos hcw hiw0) (div_pos hch hih0)
  unfold baseScale
  rw [if_neg (ne_of_gt hraw)]
  exact hraw

theorem dispW_pos {s : ℚ} {e : CropEnv} (hs : 0 < s) (hz : 0 < e.zoom)
    (hiw : 1 ≤ e.naturalWidth) : 0 < dispW s e := by
  have hiw0 : (0 : ℚ) < (e.naturalWidth : ℚ) := by exact_mod_cast hiw.trans_lt' Nat.zero_lt_one
  unfold dispW bw
  positivity

theorem dispH_pos {s : ℚ} {e : CropEnv} (hs : 0 < s) (hz : 0 < e.zoom)
    (hih : 1 ≤ e.naturalHeight) : 0 < dispH s e := by
  have hih0 : (0 : ℚ) < (e.naturalHeight : ℚ) := by exact_mod_cast hih.trans_lt' Nat.zero_lt_one
  unfold dispH bh
  positivity

theorem ix_nonneg (s : ℚ) (e : CropEnv) (sel : Selection) : 0 ≤ ix s e sel :=
  le_max_left _ _

theorem iy_nonneg (s : ℚ) (e : CropEnv) (sel : Selection) : 0 ≤ iy s e sel :=
  le_max_left _ _

theorem ix_le_dispW {s : ℚ} {e : CropEnv} (sel : Selection)
    (hd : 0 ≤ dispW s e) : ix s e sel ≤ dispW s e := by
  unfold ix
  apply max_le hd
  have := min_le_right sel.x (imgLeft s e + dispW s e)
  linarith

theorem ix2_le_dispW {s : ℚ} {e : CropEnv} (sel : Selection)
    (hd : 0 ≤ dispW s e) : ix2 s e sel ≤ dispW s e := by
  unfold ix2
  apply max_le hd
  have := min_le_right (sel.x + sel.width) (imgLeft s e + dispW s e)
  linarith

theorem iy_le_dispH {s : ℚ} {e : CropEnv} (sel : Selection)
    (hd : 0 ≤ dispH s e) : iy s e sel ≤ dispH s e := by
  unfold iy
  apply max_le hd
  have := min_le_right sel.y (imgTop s e + dispH s e)
  linarith

theorem iy2_le_dispH {s : ℚ} {e : CropEnv} (sel : Selection)
    (hd : 0 ≤ dispH s e) : iy2 s e sel ≤ dispH s e := by
  unfold iy2
  apply max_le hd
  have := min_le_right (sel.y + sel.height) (imgTop s e + dispH s e)
  linarith

/-- The clamped left edge plus the clamped intersection width never pass the
right edge of the displayed image. -/
theorem ix_add_selW_le {s : ℚ} {e : CropEnv} (sel : Selection)
    (hd : 0 ≤ dispW s e) : ix s e sel + selWOnImg s e sel ≤ dispW s e := by
  unfold selWOnImg
  rcases le_total (ix2 s e sel - ix s e sel) 0 with h | h
  · rw [max_eq_left h]
    simpa using ix_le_dispW sel hd
  · rw [max_eq_right h]
    have := ix2_le_dispW sel hd
    linarith

theorem iy_add_selH_le {s : ℚ} {e : CropEnv} (sel : Selection)
    (hd : 0 ≤ dispH s e) : iy s e sel + selHOnImg s e sel ≤ dispH s e := by
  unfold selHOnImg
  rcases le_total (iy2 s e sel - iy s e sel) 0 with h | h
  · rw [max_eq_left h]
    simpa using iy_le_dispH sel hd
  · rw [max_eq_right h]
    have := iy2_le_dispH sel hd
    linarith

/-- One-axis bound: a nonneg offset `p` and an at-least-one-display-pixel
extent `q` fitting inside a positive display span `d` produce, after the
normalize/floor/clamp steps, a pixel interval inside `[0, n]`. -/
theorem axis_bounds (n : ℕ) (d p q : ℚ) (hn : 1 ≤ n) (hd : 0 < d)
    (hp : 0 ≤ p) (hq : 1 ≤ q) (hpq : p + q ≤ d) :
    0 ≤ max 0 ⌊p / d * (n : ℚ)⌋ ∧ 1 ≤ max 1 ⌊q / d * (n : ℚ)⌋ ∧
      max 0 ⌊p / d * (n : ℚ)⌋ + max 1 ⌊q / d * (n : ℚ)⌋ ≤ (n : ℤ) := by
  have hn0 : (0 : ℚ) < (n : ℚ) := by exact_mod_cast hn.trans_lt' Nat.zero_lt_one
  have ha : 0 ≤ p / d * (n : ℚ) := by positivity
  have hfa : 0 ≤ ⌊p / d * (n : ℚ)⌋ := Int.floor_nonneg.mpr ha
  refine ⟨le_max_left _ _, le_max_left _ _, ?_⟩
  rw [max_eq_right hfa]
  rcases le_or_lt 1 ⌊q / d * (n : ℚ)⌋ with hb | hb
  · rw [max_eq_right hb]
    have hsum : ⌊p / d * (n : ℚ)⌋ + ⌊q / d * (n : ℚ)⌋ ≤ ⌊p / d * (n : ℚ) + q / d * (n : ℚ)⌋ := by
      apply Int.le_floor.mpr
      push_cast
      exact add_le_add (Int.floor_le _) (Int.floor_le _)
    have hle : p / d * (n : ℚ) + q / d * (n : ℚ) ≤ (n : ℚ) := by
      have h1 : (p + q) / d ≤ 1 := (div_le_one hd).mpr hpq
      have h2 : (p + q) / d * (n : ℚ) ≤ 1 * (n : ℚ) :=
        mul_le_mul_of_nonneg_right h1 (le_of_lt hn0)
      calc p / d * (n : ℚ) + q / d * (n : ℚ) = (p + q) / d * (n : ℚ) := by ring
        _ ≤ 1 * (n : ℚ) := h2
        _ = (n : ℚ) := one_mul _
    calc ⌊p / d * (n : ℚ)⌋ + ⌊q / d * (n : ℚ)⌋
        ≤ ⌊p / d * (n : ℚ) + q / d * (n : ℚ)⌋ := hsum
      _ ≤ ⌊(n : ℚ)⌋ := Int.floor_le_floor hle
      _ = (n : ℤ) := Int.floor_natCast n
  · rw [max_eq_left hb.le]
    have hplt : p < d := by linarith
    have halt : p / d * (n : ℚ) < (n : ℚ) := by
      have h1 : p / d < 1 := (div_lt_one hd).mpr hplt
      calc p / d * (n : ℚ) < 1 * (n : ℚ) := mul_lt_mul_of_pos_right h1 hn0
        _ = (n : ℚ) := one_mul _
    have : ⌊p / d * (n : ℚ)⌋ < (n : ℤ) := Int.floor_lt.mpr (by exact_mod_cast halt)
    omega

/-! ## Claims -/

/-- C1: every non-null result of `computeCropPixelsFromSelection` (on a
geometry with positive natural, container and zoom values) is a valid
sub-rectangle of `[0, naturalWidth) × [0, naturalHeight)`: nonnegative
position, extent at least 1, and right/bottom edges clamped to the natural
dimensions — in particular a selection reaching past the displayed image's
right/bottom edge never yields pixels beyond `naturalWidth`/`naturalHeight`. -/
theorem c1_crop_pixels_valid_subrectangle (e : CropEnv) (sel : Selection)
    (c : CropPixels) (hiw : 1 ≤ e.naturalWidth) (hih : 1 ≤ e.naturalHeight)
    (hcw : 0 < e.containerWidth) (hch : 0 < e.containerHeight)
    (hz : 0 < e.zoom)
    (h : computeCropPixelsFromSelection e (some sel) = some c) :
    0 ≤ c.x ∧ 0 ≤ c.y ∧ 1 ≤ c.width ∧ 1 ≤ c.height ∧
      c.x + c.width ≤ (e.naturalWidth : ℤ) ∧
      c.y + c.height ≤ (e.naturalHeight : ℤ) := by
  obtain ⟨hv, hw1, hh1, rfl⟩ := computeWithScale_eq_some h
  have hs : 0 < baseScale e := baseScale_pos hiw hih hcw hch
  have hdW : 0 < dispW (baseScale e) e := dispW_pos hs hz hiw
  have hdH : 0 < dispH (baseScale e) e := dispH_pos hs hz hih
  have hx := axis_bounds e.naturalWidth (dispW (baseScale e) e)
    (ix (baseScale e) e sel) (selWOnImg (baseScale e) e sel) hiw hdW
    (ix_nonneg _ _ _) hw1 (ix_add_selW_le sel hdW.le)
  have hy := axis_bounds e.naturalHeight (dispH (baseScale e) e)
    (iy (baseScale e) e sel) (selHOnImg (baseScale e) e sel) hih hdH
    (iy_nonneg _ _ _) hh1 (iy_add_selH_le sel hdH.le)
  exact ⟨hx.1, hy.1, hx.2.1, hy.2.1, hx.2.2, hy.2.2⟩

/-- Witness for C1 at the concrete scenario of the spec. -/
theorem c1_crop_pixels_valid_subrectangle_witness :
    0 ≤ (⟨250, 0, 500, 250⟩ : CropPixels).x ∧
      0 ≤ (⟨250, 0, 500, 250⟩ : CropPixels).y ∧
      1 ≤ (⟨250, 0, 500, 250⟩ : CropPixels).width ∧
      1 ≤ (⟨250, 0, 500, 250⟩ : CropPixels).height ∧
      (⟨250, 0, 500, 250⟩ : CropPixels).x + (⟨250, 0, 500, 250⟩ : CropPixels).width
        ≤ ((⟨1000, 500, 500, 500, 1, 0, 0⟩ : CropEnv).naturalWidth : ℤ) ∧
      (⟨250, 0, 500, 250⟩ : CropPixels).y + (⟨250, 0, 500, 250⟩ : CropPixels).height
        ≤ ((⟨1000, 500, 500, 500, 1, 0, 0⟩ : CropEnv).naturalHeight : ℤ) :=
  c1_crop_pixels_valid_subrectangle ⟨1000, 500, 500, 500, 1, 0, 0⟩
    ⟨125, 0, 250, 250⟩ ⟨250, 0, 500, 250⟩ (by norm_num) (by norm_num)
    (by norm_num) (by norm_num) (by norm_num)
    (by norm_num [computeCropPixelsFromSelection, computeWithScale,
      resolveWithScale, isValidSelection, selWOnImg, selHOnImg, ix, iy, ix2,
      iy2, imgLeft, imgTop, dispW, dispH, ex, ey, bw, bh, baseScale,
      baseScaleRaw])

/-- C2: the spec's concrete scenario — `naturalSize = {1000, 500}`,
`containerSize = {500, 500}`, `zoom = 1` (origin irrelevant, taken 0),
`selection = {x: 125, y: 0, width: 250, height: 250}` — yields
`baseScale = 1/2`, base displayed size `500 × 250`, vertical letterbox
offset `125`, intersection `(125, 0)-(375, 125)` relative to the image,
normalized `(1/4, 0)-(3/4, 1/2)`, and pixel result
`{x: 250, y: 0, width: 500, height: 250}`. -/
theorem c2_concrete_scenario :
    baseScale ⟨1000, 500, 500, 500, 1, 0, 0⟩ = 1 / 2 ∧
    bw (1 / 2) ⟨1000, 500, 500, 500, 1, 0, 0⟩ = 500 ∧
    bh (1 / 2) ⟨1000, 500, 500, 500, 1, 0, 0⟩ = 250 ∧
    ey (1 / 2) ⟨1000, 500, 500, 500, 1, 0, 0⟩ = 125 ∧
    ix (1 / 2) ⟨1000, 500, 500, 500, 1, 0, 0⟩ ⟨125, 0, 250, 250⟩ = 125 ∧
    iy (1 / 2) ⟨1000, 500, 500, 500, 1, 0, 0⟩ ⟨125, 0, 250, 250⟩ = 0 ∧
    ix2 (1 / 2) ⟨1000, 500, 500, 500, 1, 0, 0⟩ ⟨125, 0, 250, 250⟩ = 375 ∧
    iy2 (1 / 2) ⟨1000, 500, 500, 500, 1, 0, 0⟩ ⟨125, 0, 250, 250⟩ = 125 ∧
    ix (1 / 2) ⟨1000, 500, 500, 500, 1, 0, 0⟩ ⟨125, 0, 250, 250⟩ /
      dispW (1 / 2) ⟨1000, 500, 500, 500, 1, 0, 0⟩ = 1 / 4 ∧
    iy (1 / 2) ⟨1000, 500, 500, 500, 1, 0, 0⟩ ⟨125, 0, 250, 250⟩ /
      dispH (1 / 2) ⟨1000, 500, 500, 500, 1, 0, 0⟩ = 0 ∧
    ix2 (1 / 2) ⟨1000, 500, 500, 500, 1, 0, 0⟩ ⟨125, 0, 250, 250⟩ /
      dispW (1 / 2) ⟨1000, 500, 500, 500, 1, 0, 0⟩ = 3 / 4 ∧
    iy2 (1 / 2) ⟨1000, 500, 500, 500, 1, 0, 0⟩ ⟨125, 0, 250, 250⟩ /
      dispH (1 / 2) ⟨1000, 500, 500, 500, 1, 0, 0⟩ = 1 / 2 ∧
    computeCropPixelsFromSelection ⟨1000, 500, 500, 500, 1, 0, 0⟩
      (some ⟨125, 0, 250, 250⟩) = some ⟨250, 0, 500, 250⟩ := by
  norm_num [computeCropPixelsFromSelection, computeWithScale,
    resolveWithScale, isValidSelection, selWOnImg, selHOnImg, ix, iy, ix2,
    iy2, imgLeft, imgTop, dispW, dispH, ex, ey, bw, bh, baseScale,
    baseScaleRaw]

/-- C3: the raw-ratio crop mapping duplicated in the unnamed page variants
(`refreshToSendPreview`) is not equivalent to
`computeCropPixelsFromSelection` of `page.tsx`: for a 500 × 1000 image in a
500 × 500 container at zoom 1, selection `{125, 0, 250, 250}`, the resolver
returns `{0, 0, 500, 500}` while the variant (no letterbox offset, no zoom
transform) returns `{125, 0, 250, 500}`. -/
theorem c3_variant_mapping_disagrees :
    computeCropPixelsFromSelection ⟨500, 1000, 500, 500, 1, 0, 0⟩
        (some ⟨125, 0, 250, 250⟩) = some ⟨0, 0, 500, 500⟩ ∧
      variantCropPixels 500 1000 500 500 ⟨125, 0, 250, 250⟩ =
        ⟨125, 0, 250, 500⟩ ∧
      computeCropPixelsFromSelection ⟨500, 1000, 500, 500, 1, 0, 0⟩
          (some ⟨125, 0, 250, 250⟩) ≠
        some (variantCropPixels 500 1000 500 500 ⟨125, 0, 250, 250⟩) := by
  norm_num [computeCropPixelsFromSelection, computeWithScale,
    resolveWithScale, isValidSelection, selWOnImg, selHOnImg, ix, iy, ix2,
    iy2, imgLeft, imgTop, dispW, dispH, ex, ey, bw, bh, baseScale,
    baseScaleRaw, variantCropPixels]

/-- Helper: whenever one of the display-pixel intersection extents is below
1, the resolver returns `none` (regardless of the validity guard). -/
theorem compute_none_of_small {e : CropEnv} {sel : Selection}
    (h : selWOnImg (baseScale e) e sel < 1 ∨ selHOnImg (baseScale e) e sel < 1) :
    computeCropPixelsFromSelection e (some sel) = none := by
  show (if isValidSelection sel then resolveWithScale (baseScale e) e sel else none) = none
  split_ifs with hv
  · unfold resolveWithScale
    rw [if_pos h]
  · rfl

/-- C4 counterexample: on a container with both dimensions zero (invalid
geometry), `computeCropPixelsFromSelection` does not raise: the `|| 1`
fallback substitutes base scale 1 and the call completes normally, here
returning the crop rectangle `{50, 50, 8, 8}`. -/
theorem c4_zero_container_counterexample :
    computeCropPixelsFromSelection ⟨100, 100, 0, 0, 1, 0, 0⟩
      (some ⟨0, 0, 8, 8⟩) = some ⟨50, 50, 8, 8⟩ := by
  norm_num [computeCropPixelsFromSelection, computeWithScale,
    resolveWithScale, isValidSelection, selWOnImg, selHOnImg, ix, iy, ix2,
    iy2, imgLeft, imgTop, dispW, dispH, ex, ey, bw, bh, baseScale,
    baseScaleRaw]

/-- C4 amended: when the container has both dimensions zero the resolver
does not raise on the violated precondition; the `|| 1` fallback replaces
the zero contain scale by 1 and the computation completes normally,
returning whatever crop rectangle or `null` that fallback geometry gives. -/
theorem c4_zero_container_falls_back_to_scale_one (e : CropEnv)
    (sel? : Option Selection) (hcw : e.containerWidth = 0)
    (hch : e.containerHeight = 0) :
    computeCropPixelsFromSelection e sel? = computeWithScale 1 e sel? := by
  unfold computeCropPixelsFromSelection
  have hraw : baseScaleRaw e = 0 := by
    unfold baseScaleRaw
    rw [hcw, hch]
    simp
  have hbs : baseScale e = 1 := by
    unfold baseScale
    rw [if_pos hraw]
  rw [hbs]

/-- Witness for C4's amended claim at a concrete zero-sized container. -/
theorem c4_zero_container_falls_back_to_scale_one_witness :
    (⟨100, 100, 0, 0, 1, 0, 0⟩ : CropEnv).containerWidth = 0 ∧
      (⟨100, 100, 0, 0, 1, 0, 0⟩ : CropEnv).containerHeight = 0 ∧
      computeCropPixelsFromSelection ⟨100, 100, 0, 0, 1, 0, 0⟩
          (some ⟨2, 2, 10, 10⟩) =
        computeWithScale 1 ⟨100, 100, 0, 0, 1, 0, 0⟩ (some ⟨2, 2, 10, 10⟩) :=
  ⟨rfl, rfl, c4_zero_container_falls_back_to_scale_one
    ⟨100, 100, 0, 0, 1, 0, 0⟩ (some ⟨2, 2, 10, 10⟩) rfl rfl⟩

/-- C5 counterexample: at zoom 5 on a 100 × 100 image in a 100 × 100
container, the selection `{-6, -6, 8, 8}` intersects the displayed image in
a 2 × 2 display-pixel sliver that maps to a 0.4 × 0.4 region of the natural
image — smaller than 1 × 1 natural pixel — yet the resolver returns
`{0, 0, 1, 1}` instead of `null` (its `< 1` test is in display pixels). -/
theorem c5_subpixel_region_counterexample :
    selWOnImg (baseScale ⟨100, 100, 100, 100, 5, 0, 0⟩)
        ⟨100, 100, 100, 100, 5, 0, 0⟩ ⟨-6, -6, 8, 8⟩ /
        dispW (baseScale ⟨100, 100, 100, 100, 5, 0, 0⟩)
          ⟨100, 100, 100, 100, 5, 0, 0⟩ * (100 : ℚ) < 1 ∧
      selHOnImg (baseScale ⟨100, 100, 100, 100, 5, 0, 0⟩)
          ⟨100, 100, 100, 100, 5, 0, 0⟩ ⟨-6, -6, 8, 8⟩ /
          dispH (baseScale ⟨100, 100, 100, 100, 5, 0, 0⟩)
            ⟨100, 100, 100, 100, 5, 0, 0⟩ * (100 : ℚ) < 1 ∧
      computeCropPixelsFromSelection ⟨100, 100, 100, 100, 5, 0, 0⟩
        (some ⟨-6, -6, 8, 8⟩) = some ⟨0, 0, 1, 1⟩ := by
  norm_num [computeCropPixelsFromSelection, computeWithScale,
    resolveWithScale, isValidSelection, selWOnImg, selHOnImg, ix, iy, ix2,
    iy2, imgLeft, imgTop, dispW, dispH, ex, ey, bw, bh, baseScale,
    baseScaleRaw]

/-- C5 amended: the resolver's sub-pixel cutoff is in display pixels, not
natural pixels — whenever the selection's intersection with the displayed
image is less than 1 display pixel wide or tall, the result is `null`. -/
theorem c5_subdisplaypixel_returns_null (e : CropEnv) (sel : Selection)
    (h : selWOnImg (baseScale e) e sel < 1 ∨ selHOnImg (baseScale e) e sel < 1) :
    computeCropPixelsFromSelection e (some sel) = none :=
  compute_none_of_small h

/-- Witness for C5's amended claim: a selection wholly left of the image. -/
theorem c5_subdisplaypixel_returns_null_witness :
    (selWOnImg (baseScale ⟨100, 100, 100, 100, 1, 0, 0⟩)
        ⟨100, 100, 100, 100, 1, 0, 0⟩ ⟨-50, 0, 10, 10⟩ < 1 ∨
      selHOnImg (baseScale ⟨100, 100, 100, 100, 1, 0, 0⟩)
        ⟨100, 100, 100, 100, 1, 0, 0⟩ ⟨-50, 0, 10, 10⟩ < 1) ∧
      computeCropPixelsFromSelection ⟨100, 100, 100, 100, 1, 0, 0⟩
        (some ⟨-50, 0, 10, 10⟩) = none := by
  constructor
  · left
    norm_num [selWOnImg, ix, ix2, imgLeft, dispW, ex, bw, baseScale,
      baseScaleRaw]
  · exact c5_subdisplaypixel_returns_null ⟨100, 100, 100, 100, 1, 0, 0⟩
      ⟨-50, 0, 10, 10⟩ (Or.inl (by
        norm_num [selWOnImg, ix, ix2, imgLeft, dispW, ex, bw, baseScale,
          baseScaleRaw]))

/-- C7: for a container wider than the image's aspect ratio (horizontal
letterboxing), a selection lying entirely outside the displayed image's
horizontal extent — entirely in the left or right letterbox margin —
resolves to `null`. -/
theorem c7_letterbox_margin_selection_null (e : CropEnv) (sel : Selection)
    (hiw : 1 ≤ e.naturalWidth) (hih : 1 ≤ e.naturalHeight)
    (hcw : 0 < e.containerWidth) (hch : 0 < e.containerHeight)
    (hz : 0 < e.zoom)
    (haspect : e.containerHeight / (e.naturalHeight : ℚ) <
      e.containerWidth / (e.naturalWidth : ℚ))
    (hw : 0 ≤ sel.width)
    (houtside : sel.x + sel.width ≤ imgLeft (baseScale e) e ∨
      imgLeft (baseScale e) e + dispW (baseScale e) e ≤ sel.x) :
    computeCropPixelsFromSelection e (some sel) = none := by
  have hs : 0 < baseScale e := baseScale_pos hiw hih hcw hch
  have hdW : 0 < dispW (baseScale e) e := dispW_pos hs hz hiw
  apply compute_none_of_small
  left
  rcases houtside with hleft | hright
  · have hx2 : ix2 (baseScale e) e sel = 0 := by
      unfold ix2
      have h1 := min_le_left (sel.x + sel.width)
        (imgLeft (baseScale e) e + dispW (baseScale e) e)
      rw [max_eq_left (by linarith)]
    have hx := ix_nonneg (baseScale e) e sel
    unfold selWOnImg
    rw [hx2, max_eq_left (by linarith)]
    norm_num
  · have hx : ix (baseScale e) e sel = dispW (baseScale e) e := by
      unfold ix
      rw [min_eq_right hright, add_sub_cancel_left, max_eq_right hdW.le]
    have hx2 : ix2 (baseScale e) e sel = dispW (baseScale e) e := by
      unfold ix2
      rw [min_eq_right (by linarith), add_sub_cancel_left,
        max_eq_right hdW.le]
    unfold selWOnImg
    rw [hx, hx2, sub_self, max_self]
    norm_num

/-- Witness for C7: a 100 × 100 image centered in a 300 × 100 container
leaves 100-wide margins; a selection inside the left margin gives `null`. -/
theorem c7_letterbox_margin_selection_null_witness :
    ((⟨100, 100, 300, 100, 1, 0, 0⟩ : CropEnv).containerHeight /
        ((⟨100, 100, 300, 100, 1, 0, 0⟩ : CropEnv).naturalHeight : ℚ) <
      (⟨100, 100, 300, 100, 1, 0, 0⟩ : CropEnv).containerWidth /
        ((⟨100, 100, 300, 100, 1, 0, 0⟩ : CropEnv).naturalWidth : ℚ)) ∧
      ((⟨10, 10, 50, 50⟩ : Selection).x + (⟨10, 10, 50, 50⟩ : Selection).width ≤
        imgLeft (baseScale ⟨100, 100, 300, 100, 1, 0, 0⟩)
          ⟨100, 100, 300, 100, 1, 0, 0⟩) ∧
      computeCropPixelsFromSelection ⟨100, 100, 300, 100, 1, 0, 0⟩
        (some ⟨10, 10, 50, 50⟩) = none := by
  refine ⟨by norm_num, ?_, ?_⟩
  · norm_num [imgLeft, ex, bw, baseScale, baseScaleRaw]
  · exact c7_letterbox_margin_selection_null ⟨100, 100, 300, 100, 1, 0, 0⟩
      ⟨10, 10, 50, 50⟩ (by norm_num) (by norm_num) (by norm_num)
      (by norm_num) (by norm_num) (by norm_num) (by norm_num)
      (Or.inl (by norm_num [imgLeft, ex, bw, baseScale, baseScaleRaw]))

/-- C6 counterexample: with `naturalSize = containerSize = 100 × 100` and
`zoom = 1`, the in-bounds selection `{1/2, 0, 8, 8}` (fractional pointer
coordinate) resolves to `{0, 0, 8, 8}`: `Math.floor` moves the x coordinate
to 0, so the result does not equal the selection rectangle itself (whose
clamped left edge is 1/2). -/
theorem c6_identity_fractional_counterexample :
    computeCropPixelsFromSelection ⟨100, 100, 100, 100, 1, 0, 0⟩
        (some ⟨1 / 2, 0, 8, 8⟩) = some ⟨0, 0, 8, 8⟩ ∧
      ix (baseScale ⟨100, 100, 100, 100, 1, 0, 0⟩)
        ⟨100, 100, 100, 100, 1, 0, 0⟩ ⟨1 / 2, 0, 8, 8⟩ = 1 / 2 ∧
      ((0 : ℤ) : ℚ) ≠ 1 / 2 := by
  norm_num [computeCropPixelsFromSelection, computeWithScale,
    resolveWithScale, isValidSelection, selWOnImg, selHOnImg, ix, iy, ix2,
    iy2, imgLeft, imgTop, dispW, dispH, ex, ey, bw, bh, baseScale,
    baseScaleRaw]

/-- C6 amended: with `naturalSize = containerSize`, `zoom = 1`, and a
selection whose coordinates are whole numbers, the non-null result equals
the selection rectangle clamped to the image bounds (the clamped rectangle
being `(ix, iy, selWOnImg, selHOnImg)`): `baseScale = 1`, no letterbox
offset, no zoom displacement, and the floors are exact on integers. -/
theorem c6_identity_integer_selection (e : CropEnv) (sel : Selection)
    (c : CropPixels) (ax ay aw ah : ℤ)
    (hiw : 1 ≤ e.naturalWidth) (hih : 1 ≤ e.naturalHeight)
    (hcw : e.containerWidth = (e.naturalWidth : ℚ))
    (hch : e.containerHeight = (e.naturalHeight : ℚ))
    (hz : e.zoom = 1)
    (hax : sel.x = (ax : ℚ)) (hay : sel.y = (ay : ℚ))
    (haw : sel.width = (aw : ℚ)) (hah : sel.height = (ah : ℚ))
    (h : computeCropPixelsFromSelection e (some sel) = some c) :
    (c.x : ℚ) = ix (baseScale e) e sel ∧
      (c.y : ℚ) = iy (baseScale e) e sel ∧
      (c.width : ℚ) = selWOnImg (baseScale e) e sel ∧
      (c.height : ℚ) = selHOnImg (baseScale e) e sel := by
  obtain ⟨hv, hw1, hh1, rfl⟩ := computeWithScale_eq_some h
  have hiw0 : ((e.naturalWidth : ℚ)) ≠ 0 := by
    have : (0 : ℚ) < (e.naturalWidth : ℚ) := by
      exact_mod_cast hiw.trans_lt' Nat.zero_lt_one
    exact ne_of_gt this
  have hih0 : ((e.naturalHeight : ℚ)) ≠ 0 := by
    have : (0 : ℚ) < (e.naturalHeight : ℚ) := by
      exact_mod_cast hih.trans_lt' Nat.zero_lt_one
    exact ne_of_gt this
  have hbs : baseScale e = 1 := by
    unfold baseScale baseScaleRaw
    rw [hcw, hch, div_self hiw0, div_self hih0]
    norm_num
  have hL : imgLeft (baseScale e) e = 0 := by
    unfold imgLeft ex bw
    rw [hbs, hz, hcw]
    ring
  have hT : imgTop (baseScale e) e = 0 := by
    unfold imgTop ey bh
    rw [hbs, hz, hch]
    ring
  have hdW : dispW (baseScale e) e = (e.naturalWidth : ℚ) := by
    unfold dispW bw
    rw [hbs, hz]
    ring
  have hdH : dispH (baseScale e) e = (e.naturalHeight : ℚ) := by
    unfold dispH bh
    rw [hbs, hz]
    ring
  have hix : ix (baseScale e) e sel =
      ((max 0 (min ax (e.naturalWidth : ℤ)) : ℤ) : ℚ) := by
    unfold ix
    rw [hL, hdW, hax, zero_add, sub_zero]
    push_cast
    rfl
  have hiy : iy (baseScale e) e sel =
      ((max 0 (min ay (e.naturalHeight : ℤ)) : ℤ) : ℚ) := by
    unfold iy
    rw [hT, hdH, hay, zero_add, sub_zero]
    push_cast
    rfl
  have hix2 : ix2 (baseScale e) e sel =
      ((max 0 (min (ax + aw) (e.naturalWidth : ℤ)) : ℤ) : ℚ) := by
    unfold ix2
    rw [hL, hdW, hax, haw, zero_add, sub_zero]
    push_cast
    rfl
  have hiy2 : iy2 (baseScale e) e sel =
      ((max 0 (min (ay + ah) (e.naturalHeight : ℤ)) : ℤ) : ℚ) := by
    unfold iy2
    rw [hT, hdH, hay, hah, zero_add, sub_zero]
    push_cast
    rfl
  have hselW : selWOnImg (baseScale e) e sel =
      ((max 0 (max 0 (min (ax + aw) (e.naturalWidth : ℤ)) -
        max 0 (min ax (e.naturalWidth : ℤ))) : ℤ) : ℚ) := by
    unfold selWOnImg
    rw [hix, hix2]
    push_cast
    rfl
  have hselH : selHOnImg (baseScale e) e sel =
      ((max 0 (max 0 (min (ay + ah) (e.naturalHeight : ℤ)) -
        max 0 (min ay (e.naturalHeight : ℤ))) : ℤ) : ℚ) := by
    unfold selHOnImg
    rw [hiy, hiy2]
    push_cast
    rfl
  refine ⟨?_, ?_, ?_, ?_⟩
  · show ((max 0 ⌊ix (baseScale e) e sel / dispW (baseScale e) e *
      (e.naturalWidth : ℚ)⌋ : ℤ) : ℚ) = ix (baseScale e) e sel
    rw [hdW, div_mul_cancel₀ _ hiw0, hix, Int.floor_intCast]
    rw [max_eq_right (le_max_left _ _)]
  · show ((max 0 ⌊iy (baseScale e) e sel / dispH (baseScale e) e *
      (e.naturalHeight : ℚ)⌋ : ℤ) : ℚ) = iy (baseScale e) e sel
    rw [hdH, div_mul_cancel₀ _ hih0, hiy, Int.floor_intCast]
    rw [max_eq_right (le_max_left _ _)]
  · show ((max 1 ⌊selWOnImg (baseScale e) e sel / dispW (baseScale e) e *
      (e.naturalWidth : ℚ)⌋ : ℤ) : ℚ) = selWOnImg (baseScale e) e sel
    rw [hdW, div_mul_cancel₀ _ hiw0, hselW, Int.floor_intCast]
    rw [max_eq_right]
    rw [hselW] at hw1
    exact_mod_cast hw1
  · show ((max 1 ⌊selHOnImg (baseScale e) e sel / dispH (baseScale e) e *
      (e.naturalHeight : ℚ)⌋ : ℤ) : ℚ) = selHOnImg (baseScale e) e sel
    rw [hdH, div_mul_cancel₀ _ hih0, hselH, Int.floor_intCast]
    rw [max_eq_right]
    rw [hselH] at hh1
    exact_mod_cast hh1

/-- Witness for C6's amended claim: a whole-number selection on a 100 × 100
image filling its container maps to itself (origin irrelevant at zoom 1). -/
theorem c6_identity_integer_selection_witness :
    ((10 : ℤ) : ℚ) = ix (baseScale ⟨100, 100, 100, 100, 1, 37, 12⟩)
        ⟨100, 100, 100, 100, 1, 37, 12⟩ ⟨10, 5, 20, 30⟩ ∧
      ((5 : ℤ) : ℚ) = iy (baseScale ⟨100, 100, 100, 100, 1, 37, 12⟩)
        ⟨100, 100, 100, 100, 1, 37, 12⟩ ⟨10, 5, 20, 30⟩ ∧
      ((20 : ℤ) : ℚ) = selWOnImg (baseScale ⟨100, 100, 100, 100, 1, 37, 12⟩)
        ⟨100, 100, 100, 100, 1, 37, 12⟩ ⟨10, 5, 20, 30⟩ ∧
      ((30 : ℤ) : ℚ) = selHOnImg (baseScale ⟨100, 100, 100, 100, 1, 37, 12⟩)
        ⟨100, 100, 100, 100, 1, 37, 12⟩ ⟨10, 5, 20, 30⟩ :=
  c6_identity_integer_selection ⟨100, 100, 100, 100, 1, 37, 12⟩
    ⟨10, 5, 20, 30⟩ ⟨10, 5, 20, 30⟩ 10 5 20 30 (by norm_num) (by norm_num)
    (by norm_num) (by norm_num) (by norm_num) (by norm_num) (by norm_num)
    (by norm_num) (by norm_num)
    (by norm_num [computeCropPixelsFromSelection, computeWithScale,
      resolveWithScale, isValidSelection, selWOnImg, selHOnImg, ix, iy, ix2,
      iy2, imgLeft, imgTop, dispW, dispH, ex, ey, bw, bh, baseScale,
      baseScaleRaw])

/-- Modelled from the spec: the display → selection inverse of the
resolver's steps 1-7 (spec §8.4); it is not code of the repository but the
construction the round-trip property quantifies over. A pixel rectangle
`(px, py, pwid, phgt)` in natural image space maps to the on-screen
rectangle at `imgLeft + px/naturalWidth * dispW` (and so on) with size
`pwid/naturalWidth * dispW` — the exact preimage of steps 5-7. -/
def selectionOfPixelRect (e : CropEnv) (px py pwid phgt : ℤ) : Selection :=
  { x := imgLeft (baseScale e) e +
      (px : ℚ) / (e.naturalWidth : ℚ) * dispW (baseScale e) e
    y := imgTop (baseScale e) e +
      (py : ℚ) / (e.naturalHeight : ℚ) * dispH (baseScale e) e
    width := (pwid : ℚ) / (e.naturalWidth : ℚ) * dispW (baseScale e) e
    height := (phgt : ℚ) / (e.naturalHeight : ℚ) * dispH (baseScale e) e }

/-- Helper: clamping `[L + t, L + d]`-interval arithmetic — a point already
inside the displayed span is returned unchanged. -/
theorem clamp_inside (L d t : ℚ) (h0 : 0 ≤ t) (h1 : t ≤ d) :
    max 0 (min (L + t) (L + d) - L) = t := by
  rw [min_eq_left (by linarith), add_sub_cancel_left, max_eq_right h0]

/-- C8 counterexample: mapping the valid 10 × 10 pixel rectangle at the
origin of a 1000 × 1000 image forward (container 100 × 100, zoom 1) gives
the on-screen selection `{0, 0, 1, 1}`, which the resolver rejects as
below its 8-pixel minimum and resolves to `null` — not within 1-pixel
tolerance of the original rectangle. -/
theorem c8_roundtrip_counterexample :
    selectionOfPixelRect ⟨1000, 1000, 100, 100, 1, 0, 0⟩ 0 0 10 10 =
        ⟨0, 0, 1, 1⟩ ∧
      computeCropPixelsFromSelection ⟨1000, 1000, 100, 100, 1, 0, 0⟩
        (some (selectionOfPixelRect ⟨1000, 1000, 100, 100, 1, 0, 0⟩ 0 0 10 10)) =
        none := by
  norm_num [computeCropPixelsFromSelection, computeWithScale,
    resolveWithScale, isValidSelection, selWOnImg, selHOnImg, ix, iy, ix2,
    iy2, imgLeft, imgTop, dispW, dispH, ex, ey, bw, bh, baseScale,
    baseScaleRaw, selectionOfPixelRect]

/-- C8 amended: restricted to pixel rectangles whose forward-mapped
selection meets the resolver's 8-display-pixel minimum size, the round trip
is exact (hence within the claimed 1-pixel tolerance): resolving the
forward-mapped selection returns precisely the original pixel rectangle. -/
theorem c8_roundtrip_exact (e : CropEnv) (px py pwid phgt : ℤ)
    (hiw : 1 ≤ e.naturalWidth) (hih : 1 ≤ e.naturalHeight)
    (hcw : 0 < e.containerWidth) (hch : 0 < e.containerHeight)
    (hz : 0 < e.zoom)
    (hpx : 0 ≤ px) (hpy : 0 ≤ py) (hpw : 1 ≤ pwid) (hph : 1 ≤ phgt)
    (hxw : px + pwid ≤ (e.naturalWidth : ℤ))
    (hyh : py + phgt ≤ (e.naturalHeight : ℤ))
    (h8w : 8 ≤ (selectionOfPixelRect e px py pwid phgt).width)
    (h8h : 8 ≤ (selectionOfPixelRect e px py pwid phgt).height) :
    computeCropPixelsFromSelection e
        (some (selectionOfPixelRect e px py pwid phgt)) =
      some ⟨px, py, pwid, phgt⟩ := by
  have hs : 0 < baseScale e := baseScale_pos hiw hih hcw hch
  have hdW : 0 < dispW (baseScale e) e := dispW_pos hs hz hiw
  have hdH : 0 < dispH (baseScale e) e := dispH_pos hs hz hih
  have hnW : (0 : ℚ) < (e.naturalWidth : ℚ) := by
    exact_mod_cast hiw.trans_lt' Nat.zero_lt_one
  have hnH : (0 : ℚ) < (e.naturalHeight : ℚ) := by
    exact_mod_cast hih.trans_lt' Nat.zero_lt_one
  have hpxQ : (0 : ℚ) ≤ (px : ℚ) := by exact_mod_cast hpx
  have hpyQ : (0 : ℚ) ≤ (py : ℚ) := by exact_mod_cast hpy
  have hpwQ : (0 : ℚ) ≤ (pwid : ℚ) := by
    have : (0 : ℤ) ≤ pwid := by linarith
    exact_mod_cast this
  have hphQ : (0 : ℚ) ≤ (phgt : ℚ) := by
    have : (0 : ℤ) ≤ phgt := by linarith
    exact_mod_cast this
  have hxwQ : (px : ℚ) + (pwid : ℚ) ≤ (e.naturalWidth : ℚ) := by
    exact_mod_cast hxw
  have hyhQ : (py : ℚ) + (phgt : ℚ) ≤ (e.naturalHeight : ℚ) := by
    exact_mod_cast hyh
  set sel := selectionOfPixelRect e px py pwid phgt with hsel
  have hselx : sel.x = imgLeft (baseScale e) e +
      (px : ℚ) / (e.naturalWidth : ℚ) * dispW (baseScale e) e := rfl
  have hsely : sel.y = imgTop (baseScale e) e +
      (py : ℚ) / (e.naturalHeight : ℚ) * dispH (baseScale e) e := rfl
  have hselw : sel.width =
      (pwid : ℚ) / (e.naturalWidth : ℚ) * dispW (baseScale e) e := rfl
  have hselh : sel.height =
      (phgt : ℚ) / (e.naturalHeight : ℚ) * dispH (baseScale e) e := rfl
  have htx0 : 0 ≤ (px : ℚ) / (e.naturalWidth : ℚ) * dispW (baseScale e) e := by
    positivity
  have hty0 : 0 ≤ (py : ℚ) / (e.naturalHeight : ℚ) * dispH (baseScale e) e := by
    positivity
  have hwx0 : 0 ≤ (pwid : ℚ) / (e.naturalWidth : ℚ) * dispW (baseScale e) e := by
    positivity
  have hhy0 : 0 ≤ (phgt : ℚ) / (e.naturalHeight : ℚ) * dispH (baseScale e) e := by
    positivity
  have hsumx : (px : ℚ) / (e.naturalWidth : ℚ) * dispW (baseScale e) e +
      (pwid : ℚ) / (e.naturalWidth : ℚ) * dispW (baseScale e) e ≤
      dispW (baseScale e) e := by
    have h1 : ((px : ℚ) + (pwid : ℚ)) / (e.naturalWidth : ℚ) ≤ 1 :=
      (div_le_one hnW).mpr hxwQ
    have h2 : ((px : ℚ) + (pwid : ℚ)) / (e.naturalWidth : ℚ) *
        dispW (baseScale e) e ≤ 1 * dispW (baseScale e) e :=
      mul_le_mul_of_nonneg_right h1 hdW.le
    calc (px : ℚ) / (e.naturalWidth : ℚ) * dispW (baseScale e) e +
        (pwid : ℚ) / (e.naturalWidth : ℚ) * dispW (baseScale e) e
        = ((px : ℚ) + (pwid : ℚ)) / (e.naturalWidth : ℚ) *
          dispW (baseScale e) e := by ring
      _ ≤ 1 * dispW (baseScale e) e := h2
      _ = dispW (baseScale e) e := one_mul _
  have hsumy : (py : ℚ) / (e.naturalHeight : ℚ) * dispH (baseScale e) e +
      (phgt : ℚ) / (e.naturalHeight : ℚ) * dispH (baseScale e) e ≤
      dispH (baseScale e) e := by
    have h1 : ((py : ℚ) + (phgt : ℚ)) / (e.naturalHeight : ℚ) ≤ 1 :=
      (div_le_one hnH).mpr hyhQ
    have h2 : ((py : ℚ) + (phgt : ℚ)) / (e.naturalHeight : ℚ) *
        dispH (baseScale e) e ≤ 1 * dispH (baseScale e) e :=
      mul_le_mul_of_nonneg_right h1 hdH.le
    calc (py : ℚ) / (e.naturalHeight : ℚ) * dispH (baseScale e) e +
        (phgt : ℚ) / (e.naturalHeight : ℚ) * dispH (baseScale e) e
        = ((py : ℚ) + (phgt : ℚ)) / (e.naturalHeight : ℚ) *
          dispH (baseScale e) e := by ring
      _ ≤ 1 * dispH (baseScale e) e := h2
      _ = dispH (baseScale e) e := one_mul _
  have hixv : ix (baseScale e) e sel =
      (px : ℚ) / (e.naturalWidth : ℚ) * dispW (baseScale e) e := by
    unfold ix
    rw [hselx]
    exact clamp_inside _ _ _ htx0 (by linarith)
  have hiyv : iy (baseScale e) e sel =
      (py : ℚ) / (e.naturalHeight : ℚ) * dispH (baseScale e) e := by
    unfold iy
    rw [hsely]
    exact clamp_inside _ _ _ hty0 (by linarith)
  have hix2v : ix2 (baseScale e) e sel =
      (px : ℚ) / (e.naturalWidth : ℚ) * dispW (baseScale e) e +
      (pwid : ℚ) / (e.naturalWidth : ℚ) * dispW (baseScale e) e := by
    unfold ix2
    rw [hselx, hselw, add_assoc]
    exact clamp_inside _ _ _ (by positivity) hsumx
  have hiy2v : iy2 (baseScale e) e sel =
      (py : ℚ) / (e.naturalHeight : ℚ) * dispH (baseScale e) e +
      (phgt : ℚ) / (e.naturalHeight : ℚ) * dispH (baseScale e) e := by
    unfold iy2
    rw [hsely, hselh, add_assoc]
    exact clamp_inside _ _ _ (by positivity) hsumy
  have hselWv : selWOnImg (baseScale e) e sel =
      (pwid : ℚ) / (e.naturalWidth : ℚ) * dispW (baseScale e) e := by
    unfold selWOnImg
    rw [hixv, hix2v, add_sub_cancel_left]
    exact max_eq_right hwx0
  have hselHv : selHOnImg (baseScale e) e sel =
      (phgt : ℚ) / (e.naturalHeight : ℚ) * dispH (baseScale e) e := by
    unfold selHOnImg
    rw [hiyv, hiy2v, add_sub_cancel_left]
    exact max_eq_right hhy0
  have hvalid : isValidSelection sel := ⟨h8w, h8h⟩
  have hguard : ¬(selWOnImg (baseScale e) e sel < 1 ∨
      selHOnImg (baseScale e) e sel < 1) := by
    push_neg
    constructor
    · rw [hselWv]
      rw [hselw] at h8w
      linarith
    · rw [hselHv]
      rw [hselh] at h8h
      linarith
  have hstep : computeCropPixelsFromSelection e (some sel) =
      resolveWithScale (baseScale e) e sel := by
    show (if isValidSelection sel then resolveWithScale (baseScale e) e sel
      else none) = _
    rw [if_pos hvalid]
  rw [hstep]
  unfold resolveWithScale
  rw [if_neg hguard]
  refine congrArg some ?_
  have hxf : max 0 ⌊ix (baseScale e) e sel / dispW (baseScale e) e *
      (e.naturalWidth : ℚ)⌋ = px := by
    rw [hixv]
    have heq : (px : ℚ) / (e.naturalWidth : ℚ) * dispW (baseScale e) e /
        dispW (baseScale e) e * (e.naturalWidth : ℚ) = (px : ℚ) := by
      field_simp
      ring
    rw [heq, Int.floor_intCast, max_eq_right hpx]
  have hyf : max 0 ⌊iy (baseScale e) e sel / dispH (baseScale e) e *
      (e.naturalHeight : ℚ)⌋ = py := by
    rw [hiyv]
    have heq : (py : ℚ) / (e.naturalHeight : ℚ) * dispH (baseScale e) e /
        dispH (baseScale e) e * (e.naturalHeight : ℚ) = (py : ℚ) := by
      field_simp
      ring
    rw [heq, Int.floor_intCast, max_eq_right hpy]
  have hwf : max 1 ⌊selWOnImg (baseScale e) e sel / dispW (baseScale e) e *
      (e.naturalWidth : ℚ)⌋ = pwid := by
    rw [hselWv]
    have heq : (pwid : ℚ) / (e.naturalWidth : ℚ) * dispW (baseScale e) e /
        dispW (baseScale e) e * (e.naturalWidth : ℚ) = (pwid : ℚ) := by
      field_simp
      ring
    rw [heq, Int.floor_intCast, max_eq_right hpw]
  have hhf : max 1 ⌊selHOnImg (baseScale e) e sel / dispH (baseScale e) e *
      (e.naturalHeight : ℚ)⌋ = phgt := by
    rw [hselHv]
    have heq : (phgt : ℚ) / (e.naturalHeight : ℚ) * dispH (baseScale e) e /
        dispH (baseScale e) e * (e.naturalHeight : ℚ) = (phgt : ℚ) := by
      field_simp
      ring
    rw [heq, Int.floor_intCast, max_eq_right hph]
  rw [hxf, hyf, hwf, hhf]

/-- Witness for C8's amended claim: the rectangle `(10, 20, 30, 40)` of a
100 × 100 image shown 1:1 maps forward to the selection `{10, 20, 30, 40}`
and resolves back to exactly `(10, 20, 30, 40)`. -/
theorem c8_roundtrip_exact_witness :
    computeCropPixelsFromSelection ⟨100, 100, 100, 100, 1, 0, 0⟩
        (some (selectionOfPixelRect ⟨100, 100, 100, 100, 1, 0, 0⟩ 10 20 30 40)) =
      some ⟨10, 20, 30, 40⟩ :=
  c8_roundtrip_exact ⟨100, 100, 100, 100, 1, 0, 0⟩ 10 20 30 40
    (by norm_num) (by norm_num) (by norm_num) (by norm_num) (by norm_num)
    (by norm_num) (by norm_num) (by norm_num) (by norm_num) (by norm_num)
    (by norm_num)
    (by norm_num [selectionOfPixelRect, imgLeft, imgTop, dispW, dispH, ex,
      ey, bw, bh, baseScale, baseScaleRaw])
    (by norm_num [selectionOfPixelRect, imgLeft, imgTop, dispW, dispH, ex,
      ey, bw, bh, baseScale, baseScaleRaw])

/-- Helper: with the zoom origin at the container center, the displayed
image stays horizontally centered. -/
theorem imgLeft_centered {s : ℚ} {e : CropEnv}
    (hox : e.originX = e.containerWidth / 2) :
    imgLeft s e = e.containerWidth / 2 - dispW s e / 2 := by
  unfold imgLeft ex dispW bw
  rw [hox]
  ring

/-- Helper: with the zoom origin at the container center, the displayed
image stays vertically centered. -/
theorem imgTop_centered {s : ℚ} {e : CropEnv}
    (hoy : e.originY = e.containerHeight / 2) :
    imgTop s e = e.containerHeight / 2 - dispH s e / 2 := by
  unfold imgTop ey dispH bh
  rw [hoy]
  ring

/-- Helper: a selection centered on a centered displayed image intersects
it in width `min sel.width dispW`. -/
theorem selWOnImg_centered {s : ℚ} {e : CropEnv} {sel : Selection}
    (hd : 0 ≤ dispW s e) (hw : 0 ≤ sel.width)
    (hox : e.originX = e.containerWidth / 2)
    (hsx : sel.x + sel.width / 2 = e.containerWidth / 2) :
    selWOnImg s e sel = min sel.width (dispW s e) := by
  have hL := @imgLeft_centered s e hox
  have hselx : sel.x = e.containerWidth / 2 - sel.width / 2 := by linarith
  rcases le_total sel.width (dispW s e) with hcase | hcase
  · have hixv : ix s e sel = (dispW s e - sel.width) / 2 := by
      unfold ix
      rw [hL, hselx, min_eq_left (by linarith), max_eq_right (by linarith)]
      ring
    have hix2v : ix2 s e sel = (sel.width + dispW s e) / 2 := by
      unfold ix2
      rw [hL, hselx, min_eq_left (by linarith), max_eq_right (by linarith)]
      ring
    have hWv : selWOnImg s e sel = sel.width := by
      unfold selWOnImg
      rw [hixv, hix2v, max_eq_right (by linarith)]
      ring
    rw [hWv, min_eq_left hcase]
  · have hixv : ix s e sel = 0 := by
      unfold ix
      rw [hL, hselx, min_eq_left (by linarith), max_eq_left (by linarith)]
    have hix2v : ix2 s e sel = dispW s e := by
      unfold ix2
      rw [hL, hselx, min_eq_right (by linarith), max_eq_right (by linarith)]
      ring
    have hWv : selWOnImg s e sel = dispW s e := by
      unfold selWOnImg
      rw [hixv, hix2v, sub_zero, max_eq_right hd]
    rw [hWv, min_eq_right hcase]

/-- Helper: vertical mirror of `selWOnImg_centered`. -/
theorem selHOnImg_centered {s : ℚ} {e : CropEnv} {sel : Selection}
    (hd : 0 ≤ dispH s e) (hh : 0 ≤ sel.height)
    (hoy : e.originY = e.containerHeight / 2)
    (hsy : sel.y + sel.height / 2 = e.containerHeight / 2) :
    selHOnImg s e sel = min sel.height (dispH s e) := by
  have hT := @imgTop_centered s e hoy
  have hsely : sel.y = e.containerHeight / 2 - sel.height / 2 := by linarith
  rcases le_total sel.height (dispH s e) with hcase | hcase
  · have hiyv : iy s e sel = (dispH s e - sel.height) / 2 := by
      unfold iy
      rw [hT, hsely, min_eq_left (by linarith), max_eq_right (by linarith)]
      ring
    have hiy2v : iy2 s e sel = (sel.height + dispH s e) / 2 := by
      unfold iy2
      rw [hT, hsely, min_eq_left (by linarith), max_eq_right (by linarith)]
      ring
    have hHv : selHOnImg s e sel = sel.height := by
      unfold selHOnImg
      rw [hiyv, hiy2v, max_eq_right (by linarith)]
      ring
    rw [hHv, min_eq_left hcase]
  · have hiyv : iy s e sel = 0 := by
      unfold iy
      rw [hT, hsely, min_eq_left (by linarith), max_eq_left (by linarith)]
    have hiy2v : iy2 s e sel = dispH s e := by
      unfold iy2
      rw [hT, hsely, min_eq_right (by linarith), max_eq_right (by linarith)]
      ring
    have hHv : selHOnImg s e sel = dispH s e := by
      unfold selHOnImg
      rw [hiyv, hiy2v, sub_zero, max_eq_right hd]
    rw [hHv, min_eq_right hcase]

/-- Helper: the covered fraction `min w d / d` does not grow as the display
span `d` grows. -/
theorem min_div_le_min_div {w d1 d2 : ℚ} (hw : 0 ≤ w) (hd1 : 0 < d1)
    (hd12 : d1 ≤ d2) : min w d2 / d2 ≤ min w d1 / d1 := by
  have hd2 : 0 < d2 := lt_of_lt_of_le hd1 hd12
  rw [div_le_div_iff hd2 hd1]
  rcases le_total w d1 with h | h
  · rw [min_eq_left (h.trans hd12), min_eq_left h]
    exact mul_le_mul_of_nonneg_left hd12 hw
  · rw [min_eq_right h]
    rcases le_total w d2 with h2 | h2
    · rw [min_eq_left h2, mul_comm]
      exact mul_le_mul_of_nonneg_left h2 hd1.le
    · rw [min_eq_right h2, mul_comm]

/-- C9: with the zoom origin at the container center (which is also the
displayed image's center) and a selection centered there, increasing the
zoom from `z1` to `z2` yields a crop whose normalized size
(width / naturalWidth, height / naturalHeight) is non-increasing. -/
theorem c9_zoom_monotonicity (e : CropEnv) (sel : Selection) (z1 z2 : ℚ)
    (c1 c2 : CropPixels)
    (hiw : 1 ≤ e.naturalWidth) (hih : 1 ≤ e.naturalHeight)
    (hcw : 0 < e.containerWidth) (hch : 0 < e.containerHeight)
    (hz1 : 0 < z1) (hz12 : z1 ≤ z2)
    (hox : e.originX = e.containerWidth / 2)
    (hoy : e.originY = e.containerHeight / 2)
    (hsx : sel.x + sel.width / 2 = e.containerWidth / 2)
    (hsy : sel.y + sel.height / 2 = e.containerHeight / 2)
    (hw : 0 ≤ sel.width) (hh : 0 ≤ sel.height)
    (h1 : computeCropPixelsFromSelection { e with zoom := z1 } (some sel) =
      some c1)
    (h2 : computeCropPixelsFromSelection { e with zoom := z2 } (some sel) =
      some c2) :
    (c2.width : ℚ) / (e.naturalWidth : ℚ) ≤
        (c1.width : ℚ) / (e.naturalWidth : ℚ) ∧
      (c2.height : ℚ) / (e.naturalHeight : ℚ) ≤
        (c1.height : ℚ) / (e.naturalHeight : ℚ) := by
  obtain ⟨hv1, hw1, hh1, rfl⟩ := computeWithScale_eq_some h1
  obtain ⟨hv2, hw2, hh2, rfl⟩ := computeWithScale_eq_some h2
  have hz2 : 0 < z2 := lt_of_lt_of_le hz1 hz12
  have hnW : (0 : ℚ) < (e.naturalWidth : ℚ) := by
    exact_mod_cast hiw.trans_lt' Nat.zero_lt_one
  have hnH : (0 : ℚ) < (e.naturalHeight : ℚ) := by
    exact_mod_cast hih.trans_lt' Nat.zero_lt_one
  have hs1 : 0 < baseScale { e with zoom := z1 } :=
    baseScale_pos hiw hih hcw hch
  have hs2 : 0 < baseScale { e with zoom := z2 } :=
    baseScale_pos hiw hih hcw hch
  have hd1 : 0 < dispW (baseScale { e with zoom := z1 }) { e with zoom := z1 } :=
    dispW_pos hs1 hz1 hiw
  have hd2 : 0 < dispW (baseScale { e with zoom := z2 }) { e with zoom := z2 } :=
    dispW_pos hs2 hz2 hiw
  have he1 : 0 < dispH (baseScale { e with zoom := z1 }) { e with zoom := z1 } :=
    dispH_pos hs1 hz1 hih
  have he2 : 0 < dispH (baseScale { e with zoom := z2 }) { e with zoom := z2 } :=
    dispH_pos hs2 hz2 hih
  have hdw1 : dispW (baseScale { e with zoom := z1 }) { e with zoom := z1 } =
      (e.naturalWidth : ℚ) * baseScale e * z1 := rfl
  have hdw2 : dispW (baseScale { e with zoom := z2 }) { e with zoom := z2 } =
      (e.naturalWidth : ℚ) * baseScale e * z2 := rfl
  have hdh1 : dispH (baseScale { e with zoom := z1 }) { e with zoom := z1 } =
      (e.naturalHeight : ℚ) * baseScale e * z1 := rfl
  have hdh2 : dispH (baseScale { e with zoom := z2 }) { e with zoom := z2 } =
      (e.naturalHeight : ℚ) * baseScale e * z2 := rfl
  have hbs : 0 < baseScale e := hs1
  have hd12 : dispW (baseScale { e with zoom := z1 }) { e with zoom := z1 } ≤
      dispW (baseScale { e with zoom := z2 }) { e with zoom := z2 } := by
    rw [hdw1, hdw2]
    exact mul_le_mul_of_nonneg_left hz12 (by positivity)
  have he12 : dispH (baseScale { e with zoom := z1 }) { e with zoom := z1 } ≤
      dispH (baseScale { e with zoom := z2 }) { e with zoom := z2 } := by
    rw [hdh1, hdh2]
    exact mul_le_mul_of_nonneg_left hz12 (by positivity)
  have hW1 := selWOnImg_centered hd1.le hw hox hsx
  have hW2 := selWOnImg_centered hd2.le hw hox hsx
  have hH1 := selHOnImg_centered he1.le hh hoy hsy
  have hH2 := selHOnImg_centered he2.le hh hoy hsy
  have hmonoW : selWOnImg (baseScale { e with zoom := z2 }) { e with zoom := z2 } sel /
      dispW (baseScale { e with zoom := z2 }) { e with zoom := z2 } ≤
      selWOnImg (baseScale { e with zoom := z1 }) { e with zoom := z1 } sel /
      dispW (baseScale { e with zoom := z1 }) { e with zoom := z1 } := by
    rw [hW1, hW2]
    exact min_div_le_min_div hw hd1 hd12
  have hmonoH : selHOnImg (baseScale { e with zoom := z2 }) { e with zoom := z2 } sel /
      dispH (baseScale { e with zoom := z2 }) { e with zoom := z2 } ≤
      selHOnImg (baseScale { e with zoom := z1 }) { e with zoom := z1 } sel /
      dispH (baseScale { e with zoom := z1 }) { e with zoom := z1 } := by
    rw [hH1, hH2]
    exact min_div_le_min_div hh he1 he12
  constructor
  · have hfloor : ⌊selWOnImg (baseScale { e with zoom := z2 }) { e with zoom := z2 } sel /
        dispW (baseScale { e with zoom := z2 }) { e with zoom := z2 } *
        (e.naturalWidth : ℚ)⌋ ≤
        ⌊selWOnImg (baseScale { e with zoom := z1 }) { e with zoom := z1 } sel /
        dispW (baseScale { e with zoom := z1 }) { e with zoom := z1 } *
        (e.naturalWidth : ℚ)⌋ :=
      Int.floor_le_floor (mul_le_mul_of_nonneg_right hmonoW hnW.le)
    have hmax := max_le_max (le_refl (1 : ℤ)) hfloor
    exact (div_le_div_right hnW).mpr (by exact_mod_cast hmax)
  · have hfloor : ⌊selHOnImg (baseScale { e with zoom := z2 }) { e with zoom := z2 } sel /
        dispH (baseScale { e with zoom := z2 }) { e with zoom := z2 } *
        (e.naturalHeight : ℚ)⌋ ≤
        ⌊selHOnImg (baseScale { e with zoom := z1 }) { e with zoom := z1 } sel /
        dispH (baseScale { e with zoom := z1 }) { e with zoom := z1 } *
        (e.naturalHeight : ℚ)⌋ :=
      Int.floor_le_floor (mul_le_mul_of_nonneg_right hmonoH hnH.le)
    have hmax := max_le_max (le_refl (1 : ℤ)) hfloor
    exact (div_le_div_right hnH).mpr (by exact_mod_cast hmax)

/-- Witness for C9: a 40 × 40 selection centered in a 100 × 100 container
showing a 100 × 100 image, origin at the center; zoom 1 gives crop
`{30, 30, 40, 40}`, zoom 2 gives `{40, 40, 20, 20}` — the normalized size
shrinks from 0.4 to 0.2. -/
theorem c9_zoom_monotonicity_witness :
    ((⟨40, 40, 20, 20⟩ : CropPixels).width : ℚ) /
        ((⟨100, 100, 100, 100, 1, 50, 50⟩ : CropEnv).naturalWidth : ℚ) ≤
      ((⟨30, 30, 40, 40⟩ : CropPixels).width : ℚ) /
        ((⟨100, 100, 100, 100, 1, 50, 50⟩ : CropEnv).naturalWidth : ℚ) ∧
      ((⟨40, 40, 20, 20⟩ : CropPixels).height : ℚ) /
        ((⟨100, 100, 100, 100, 1, 50, 50⟩ : CropEnv).naturalHeight : ℚ) ≤
      ((⟨30, 30, 40, 40⟩ : CropPixels).height : ℚ) /
        ((⟨100, 100, 100, 100, 1, 50, 50⟩ : CropEnv).naturalHeight : ℚ) :=
  c9_zoom_monotonicity ⟨100, 100, 100, 100, 1, 50, 50⟩ ⟨30, 30, 40, 40⟩ 1 2
    ⟨30, 30, 40, 40⟩ ⟨40, 40, 20, 20⟩ (by norm_num) (by norm_num)
    (by norm_num) (by norm_num) (by norm_num) (by norm_num) (by norm_num)
    (by norm_num) (by norm_num) (by norm_num) (by norm_num) (by norm_num)
    (by norm_num [computeCropPixelsFromSelection, computeWithScale,
      resolveWithScale, isValidSelection, selWOnImg, selHOnImg, ix, iy, ix2,
      iy2, imgLeft, imgTop, dispW, dispH, ex, ey, bw, bh, baseScale,
      baseScaleRaw])
    (by norm_num [computeCropPixelsFromSelection, computeWithScale,
      resolveWithScale, isValidSelection, selWOnImg, selHOnImg, ix, iy, ix2,
      iy2, imgLeft, imgTop, dispW, dispH, ex, ey, bw, bh, baseScale,
      baseScaleRaw])

/-! ## Free-mode drag handlers -/

/-- State touched by the free-mode drag handlers of `page.tsx`
(`selecting`, `startPoint`, `selection`). -/
structure DragState where
  selecting : Bool
  startPoint : Option (ℚ × ℚ)
  selection : Option Selection
deriving DecidableEq

/-- Free-mode branch of the `onMouseDown` handler (page.tsx lines
638-647): the pointer position relative to the container (unclamped in the
source; a mouse-down on the container reports a point inside it) becomes
the start point, with a degenerate selection there. -/
def freeMouseDown (x y : ℚ) : DragState :=
  { selecting := true, startPoint := some (x, y),
    selection := some ⟨x, y, 0, 0⟩ }

/-- Free-mode branch of the `onMouseMove` handler (page.tsx lines
660-674): the pointer is clamped into the container box and, while
selecting with a recorded start point, the selection becomes the rectangle
spanned by start and clamped current point (min position, absolute-value
extent). -/
def freeMouseMove (cw ch x y : ℚ) (st : DragState) : DragState :=
  match st.selecting, st.startPoint with
  | true, some p =>
      { st with selection := some ⟨min p.1 (max 0 (min x cw)),
          min p.2 (max 0 (min y ch)),
          |max 0 (min x cw) - p.1|, |max 0 (min y ch) - p.2|⟩ }
  | _, _ => st

/-- A free-mode mouse-down at `(x0, y0)` followed by the given sequence of
mouse-moves over a `cw × ch` container. -/
def runFreeDrag (cw ch x0 y0 : ℚ) (moves : List (ℚ × ℚ)) : DragState :=
  moves.foldl (fun st p => freeMouseMove cw ch p.1 p.2 st)
    (freeMouseDown x0 y0)

/-- Drag invariant: the recorded start point and any current selection lie
inside the container. -/
def dragInv (cw ch : ℚ) (st : DragState) : Prop :=
  (∀ p, st.startPoint = some p → 0 ≤ p.1 ∧ p.1 ≤ cw ∧ 0 ≤ p.2 ∧ p.2 ≤ ch) ∧
    ∀ r, st.selection = some r →
      0 ≤ r.x ∧ 0 ≤ r.y ∧ 0 ≤ r.width ∧ 0 ≤ r.height ∧
        r.x + r.width ≤ cw ∧ r.y + r.height ≤ ch

/-- Helper: the rectangle formed from min and absolute difference spans
exactly up to the larger of the two points. -/
theorem min_add_abs_sub (a b : ℚ) : min a b + |b - a| = max a b := by
  rcases le_total a b with h | h
  · rw [min_eq_left h, abs_of_nonneg (by linarith), max_eq_right h]
    ring
  · rw [min_eq_right h, abs_of_nonpos (by linarith), max_eq_left h]
    ring

/-- Helper: a mouse-move preserves the drag invariant (the pointer is
clamped before being used). -/
theorem dragInv_mouseMove {cw ch : ℚ} (x y : ℚ) {st : DragState}
    (hcw : 0 ≤ cw) (hch : 0 ≤ ch) (h : dragInv cw ch st) :
    dragInv cw ch (freeMouseMove cw ch x y st) := by
  obtain ⟨hstart, hsel⟩ := h
  obtain ⟨selecting, startPoint, selection⟩ := st
  cases selecting
  · exact ⟨hstart, hsel⟩
  · cases startPoint with
    | none => exact ⟨hstart, hsel⟩
    | some p =>
      obtain ⟨hp1, hp1c, hp2, hp2c⟩ := hstart p rfl
      have hxc0 : 0 ≤ max 0 (min x cw) := le_max_left _ _
      have hxcc : max 0 (min x cw) ≤ cw := max_le hcw (min_le_right _ _)
      have hyc0 : 0 ≤ max 0 (min y ch) := le_max_left _ _
      have hycc : max 0 (min y ch) ≤ ch := max_le hch (min_le_right _ _)
      constructor
      · intro q hq
        injection hq with hq
        subst hq
        exact ⟨hp1, hp1c, hp2, hp2c⟩
      · intro r hr
        injection hr with hr
        subst hr
        refine ⟨le_min hp1 hxc0, le_min hp2 hyc0, abs_nonneg _,
          abs_nonneg _, ?_, ?_⟩
        · show min p.1 (max 0 (min x cw)) + |max 0 (min x cw) - p.1| ≤ cw
          rw [min_add_abs_sub]
          exact max_le hp1c hxcc
        · show min p.2 (max 0 (min y ch)) + |max 0 (min y ch) - p.2| ≤ ch
          rw [min_add_abs_sub]
          exact max_le hp2c hycc

/-- Helper: a mouse-down inside the container establishes the invariant. -/
theorem dragInv_mouseDown {cw ch x0 y0 : ℚ} (hx0 : 0 ≤ x0) (hxc : x0 ≤ cw)
    (hy0 : 0 ≤ y0) (hyc : y0 ≤ ch) : dragInv cw ch (freeMouseDown x0 y0) := by
  constructor
  · intro p hp
    injection hp with hp
    subst hp
    exact ⟨hx0, hxc, hy0, hyc⟩
  · intro r hr
    injection hr with hr
    subst hr
    exact ⟨hx0, hy0, le_refl 0, le_refl 0, by simpa using hxc,
      by simpa using hyc⟩

/-- Helper: the invariant survives any sequence of mouse-moves. -/
theorem dragInv_foldl {cw ch : ℚ} (hcw : 0 ≤ cw) (hch : 0 ≤ ch)
    (moves : List (ℚ × ℚ)) : ∀ st : DragState, dragInv cw ch st →
    dragInv cw ch
      (moves.foldl (fun st p => freeMouseMove cw ch p.1 p.2 st) st) := by
  induction moves with
  | nil => exact fun st h => h
  | cons m ms ih =>
    intro st h
    exact ih _ (dragInv_mouseMove m.1 m.2 hcw hch h)

/-- C10: every selection produced by a free-mode mouse-down inside the
container followed by any sequence of mouse-moves lies entirely within the
container: nonnegative position and extent, right/bottom edges at most the
container's — the moved pointer is clamped to the container and the
rectangle is the min/absolute-difference span of start and current point. -/
theorem c10_free_drag_selection_inside_container (cw ch x0 y0 : ℚ)
    (moves : List (ℚ × ℚ)) (r : Selection)
    (hx0 : 0 ≤ x0) (hxc : x0 ≤ cw) (hy0 : 0 ≤ y0) (hyc : y0 ≤ ch)
    (h : (runFreeDrag cw ch x0 y0 moves).selection = some r) :
    0 ≤ r.x ∧ 0 ≤ r.y ∧ 0 ≤ r.width ∧ 0 ≤ r.height ∧
      r.x + r.width ≤ cw ∧ r.y + r.height ≤ ch := by
  have hcw : 0 ≤ cw := le_trans hx0 hxc
  have hch : 0 ≤ ch := le_trans hy0 hyc
  have hinv := dragInv_foldl hcw hch moves (freeMouseDown x0 y0)
    (dragInv_mouseDown hx0 hxc hy0 hyc)
  exact hinv.2 r h

/-- Witness for C10: start at `(10, 10)` in a 100 × 100 container, drag far
right-down (clamped to `(100, 50)`), then far left-down (clamped to
`(0, 100)`); the final selection `{0, 10, 10, 90}` is inside the container. -/
theorem c10_free_drag_selection_inside_container_witness :
    (runFreeDrag 100 100 10 10 [(200, 50), (-5, 120)]).selection =
        some ⟨0, 10, 10, 90⟩ ∧
      0 ≤ (⟨0, 10, 10, 90⟩ : Selection).x ∧
      0 ≤ (⟨0, 10, 10, 90⟩ : Selection).y ∧
      0 ≤ (⟨0, 10, 10, 90⟩ : Selection).width ∧
      0 ≤ (⟨0, 10, 10, 90⟩ : Selection).height ∧
      (⟨0, 10, 10, 90⟩ : Selection).x + (⟨0, 10, 10, 90⟩ : Selection).width ≤ 100 ∧
      (⟨0, 10, 10, 90⟩ : Selection).y + (⟨0, 10, 10, 90⟩ : Selection).height ≤ 100 := by
  constructor
  · norm_num [runFreeDrag, freeMouseDown, freeMouseMove, abs]
  · exact c10_free_drag_selection_inside_container 100 100 10 10
      [(200, 50), (-5, 120)] ⟨0, 10, 10, 90⟩ (by norm_num) (by norm_num)
      (by norm_num) (by norm_num)
      (by norm_num [runFreeDrag, freeMouseDown, freeMouseMove, abs])

end Daisler
